import Mathlib

/-!
Shallow embedding of the event-mixing and pair-correlation task
`PWGCF/FemtoUniverse/Tasks/femtoUniversePairTaskTrackTrackSpherHarMultKtExtended.cxx`.

Machine floats of the source are modelled as exact rationals; the
momentum/nsigma literals involved in every statement below are exactly
representable, so the branch structure is unchanged.
-/

/-- PID-related configurables of the `twotracksconfigs` group
(`ConfNsigmaCombined`, `ConfNsigmaTPC`, `ConfTOFPtMin`). -/
structure TwoTracksConfig where
  confNsigmaCombined : ℚ
  confNsigmaTPC : ℚ
  confTOFPtMin : ℚ
deriving DecidableEq

/-- Source defaults: `ConfNsigmaCombined = 3.0`, `ConfNsigmaTPC = 3.0`,
`ConfTOFPtMin = 0.5`. -/
def defaultTwoTracksConfig : TwoTracksConfig := ⟨3, 3, 1/2⟩

/-- Species (PDG) codes of the two particle roles
(`ConfPDGCodePartOne`, `ConfPDGCodePartTwo`). -/
structure TrackFilterConfig where
  confPDGCodePartOne : Int
  confPDGCodePartTwo : Int
deriving DecidableEq

/-- Exact-rational form of `TMath::Hypot(x, y) < c`: the Euclidean norm
`sqrt(x^2 + y^2)` is nonnegative, so it is below `c` iff `c` is positive and
`x^2 + y^2 < c^2` (proved equivalent to the square-root form below). -/
def hypotLt (x y c : ℚ) : Bool := decide (0 < c ∧ x ^ 2 + y ^ 2 < c ^ 2)

/-- The boolean `hypotLt` coincides with the real square-root comparison the
source performs via `TMath::Hypot`. -/
theorem hypotLt_iff_sqrt (x y c : ℚ) :
    hypotLt x y c = true ↔ Real.sqrt ((x : ℝ) ^ 2 + (y : ℝ) ^ 2) < (c : ℝ) := by
  unfold hypotLt
  simp only [decide_eq_true_eq]
  constructor
  · rintro ⟨hc, hlt⟩
    have hc2 : (0 : ℝ) < (c : ℝ) := by exact_mod_cast hc
    rw [Real.sqrt_lt' hc2]
    exact_mod_cast hlt
  · intro h
    have hc : (0 : ℝ) < (c : ℝ) := lt_of_le_of_lt (Real.sqrt_nonneg _) h
    have hlt := (Real.sqrt_lt' hc).mp h
    exact ⟨by exact_mod_cast hc, by exact_mod_cast hlt⟩

/-- `IsProtonNSigma` from the source: below `ConfTOFPtMin` a pure TPC cut
`|nsigmaTPCPr| < ConfNsigmaTPC`; at or above it, the combined cut
`Hypot(nsigmaTOFPr, nsigmaTPCPr) < ConfNsigmaCombined`. -/
def IsProtonNSigma (cfg : TwoTracksConfig) (mom nsigmaTPCPr nsigmaTOFPr : ℚ) : Bool :=
  if mom < cfg.confTOFPtMin then
    if |nsigmaTPCPr| < cfg.confNsigmaTPC then true else false
  else
    if hypotLt nsigmaTOFPr nsigmaTPCPr cfg.confNsigmaCombined then true else false

/-- `IsPionNSigma` from the source: identical two-region rule (the source wraps
it in a vacuous `if (true)`). -/
def IsPionNSigma (cfg : TwoTracksConfig) (mom nsigmaTPCPi nsigmaTOFPi : ℚ) : Bool :=
  if mom < cfg.confTOFPtMin then
    if |nsigmaTPCPi| < cfg.confNsigmaTPC then true else false
  else
    if hypotLt nsigmaTOFPi nsigmaTPCPi cfg.confNsigmaCombined then true else false

/-- `IsKaonNSigma` from the source: five momentum bands with hard-coded cuts,
`0.3 = 3/10`, `0.45 = 9/20`, `0.55 = 11/20`, `1.5 = 3/2`; the final `else`
(reached only at `mom == 1.5`) rejects. -/
def IsKaonNSigma (mom nsigmaTPCK nsigmaTOFK : ℚ) : Bool :=
  if mom < 3/10 then
    if |nsigmaTPCK| < 3 then true else false
  else if mom < 9/20 then
    if |nsigmaTPCK| < 2 then true else false
  else if mom < 11/20 then
    if |nsigmaTPCK| < 1 then true else false
  else if mom < 3/2 then
    if |nsigmaTOFK| < 3 ∧ |nsigmaTPCK| < 3 then true else false
  else if mom > 3/2 then
    if |nsigmaTOFK| < 2 ∧ |nsigmaTPCK| < 3 then true else false
  else false

/-- Result of `IsParticleNSigma`: either a boolean admission decision or the
fatal abort raised by `LOGF(fatal, ...)`. -/
inductive PIDOutcome where
  | ok (admitted : Bool)
  | fatal
deriving DecidableEq

/-- The nsigma inputs of one track under the three species hypotheses, as
passed to `IsParticleNSigma`. -/
structure NSigmaInputs where
  mom : ℚ
  nsigmaTPCPr : ℚ
  nsigmaTOFPr : ℚ
  nsigmaTPCPi : ℚ
  nsigmaTOFPi : ℚ
  nsigmaTPCK : ℚ
  nsigmaTOFK : ℚ
deriving DecidableEq

/-- The `switch (ConfPDGCodePart...)` dispatch inside `IsParticleNSigma`:
protons, pions and kaons go to their species rule; the `default:` branch
returns `false`. -/
def pidDispatch (cfg : TwoTracksConfig) (pdgCode : Int) (s : NSigmaInputs) : Bool :=
  if pdgCode = 2212 ∨ pdgCode = -2212 then
    IsProtonNSigma cfg s.mom s.nsigmaTPCPr s.nsigmaTOFPr
  else if pdgCode = 211 ∨ pdgCode = -211 then
    IsPionNSigma cfg s.mom s.nsigmaTPCPi s.nsigmaTOFPi
  else if pdgCode = 321 ∨ pdgCode = -321 then
    IsKaonNSigma s.mom s.nsigmaTPCK s.nsigmaTOFK
  else
    false

/-- `IsParticleNSigma` from the source: role 1 dispatches on
`ConfPDGCodePartOne`, role 2 on `ConfPDGCodePartTwo`, any other role index
hits `LOGF(fatal, ...)`. -/
def IsParticleNSigma (cfg : TwoTracksConfig) (tracks : TrackFilterConfig)
    (particleNumber : Int) (s : NSigmaInputs) : PIDOutcome :=
  if particleNumber = 1 then
    PIDOutcome.ok (pidDispatch cfg tracks.confPDGCodePartOne s)
  else if particleNumber = 2 then
    PIDOutcome.ok (pidDispatch cfg tracks.confPDGCodePartTwo s)
  else
    PIDOutcome.fatal

/-- Boolean view of `IsParticleNSigma` as used in the gating call sites (the
`return false` after `LOGF(fatal, ...)` is unreachable there since the call
sites pass the literal 1 or 2). -/
def IsParticleNSigmaB (cfg : TwoTracksConfig) (tracks : TrackFilterConfig)
    (particleNumber : Int) (s : NSigmaInputs) : Bool :=
  match IsParticleNSigma cfg tracks particleNumber s with
  | PIDOutcome.ok b => b
  | PIDOutcome.fatal => false

/-- Modelled from the spec: `CombinationsFullIndexPolicy` on collections of
sizes `n` and `m` (the generator itself lives in the framework headers, not in
the sources): every index pair `(i, j)` with `i` in the first collection and
`j` in the second, in insertion order crossed by index. -/
def fullCrossPairs (n m : Nat) : List (Nat × Nat) :=
  (List.range n).flatMap fun i => (List.range m).map fun j => (i, j)

/-- Modelled from the spec: `CombinationsStrictlyUpperIndexPolicy` on a single
collection of size `n`: every index pair `(i, j)` with `i < j`, in insertion
order triangulated by index. -/
def strictUpperPairs (n : Nat) : List (Nat × Nat) :=
  (List.range n).flatMap fun i =>
    ((List.range n).filter fun j => decide (i < j)).map fun j => (i, j)

theorem mem_fullCrossPairs (n m i j : Nat) :
    (i, j) ∈ fullCrossPairs n m ↔ i < n ∧ j < m := by
  simp [fullCrossPairs, List.mem_flatMap, List.mem_map, List.mem_range]

theorem mem_strictUpperPairs (n i j : Nat) :
    (i, j) ∈ strictUpperPairs n ↔ i < j ∧ j < n := by
  simp only [strictUpperPairs, List.mem_flatMap, List.mem_map, List.mem_filter,
    List.mem_range, decide_eq_true_eq]
  constructor
  · rintro ⟨a, ha, b, ⟨hb, hab⟩, he⟩
    obtain ⟨h1, h2⟩ := Prod.mk.injEq .. ▸ he
    exact ⟨h1 ▸ h2 ▸ hab, h2 ▸ hb⟩
  · rintro ⟨hij, hj⟩
    exact ⟨i, lt_trans hij hj, j, ⟨hj, hij⟩, rfl⟩

theorem length_fullCrossPairs (n m : Nat) : (fullCrossPairs n m).length = n * m := by
  unfold fullCrossPairs
  rw [List.length_flatMap]
  induction n with
  | zero => simp
  | succ k ih => rw [List.range_succ]; simp [ih, Nat.succ_mul]

theorem nodup_fullCrossPairs (n m : Nat) : (fullCrossPairs n m).Nodup := by
  unfold fullCrossPairs
  rw [List.nodup_flatMap]
  refine ⟨fun i _ => ?_, ?_⟩
  · exact (List.nodup_range m).map fun a b h => (Prod.mk.injEq .. ▸ h).2
  · refine (List.nodup_range n).pairwise_of_forall_ne fun a ha b hb hab => ?_
    intro p hpa hpb
    simp only [Function.onFun, List.mem_map] at hpa hpb
    obtain ⟨ja, _, hja⟩ := hpa
    obtain ⟨jb, _, hjb⟩ := hpb
    exact hab ((Prod.mk.injEq .. ▸ hja.trans hjb.symm).1)

theorem nodup_strictUpperPairs (n : Nat) : (strictUpperPairs n).Nodup := by
  unfold strictUpperPairs
  rw [List.nodup_flatMap]
  refine ⟨fun i _ => ?_, ?_⟩
  · exact ((List.nodup_range n).filter _).map fun a b h => (Prod.mk.injEq .. ▸ h).2
  · refine (List.nodup_range n).pairwise_of_forall_ne fun a ha b hb hab => ?_
    intro p hpa hpb
    simp only [List.mem_map, List.mem_filter] at hpa hpb
    obtain ⟨ja, _, hja⟩ := hpa
    obtain ⟨jb, _, hjb⟩ := hpb
    exact hab ((Prod.mk.injEq .. ▸ hja.trans hjb.symm).1)

theorem length_filter_range_lt (n i : Nat) :
    ((List.range n).filter fun j => decide (i < j)).length = n - (i + 1) := by
  induction n with
  | zero => simp
  | succ k ih =>
    rw [List.range_succ, List.filter_append, List.length_append, ih]
    by_cases h : i < k
    · have hf : (List.filter (fun j => decide (i < j)) [k]).length = 1 := by simp [h]
      rw [hf]
      omega
    · have hf : (List.filter (fun j => decide (i < j)) [k]).length = 0 := by simp [h]
      rw [hf]
      omega

theorem list_sum_map_range (f : Nat → Nat) (n : Nat) :
    ((List.range n).map f).sum = ∑ i ∈ Finset.range n, f i := by
  induction n with
  | zero => simp
  | succ k ih =>
    rw [List.range_succ, List.map_append, List.sum_append, Finset.sum_range_succ, ih]
    simp

theorem length_strictUpperPairs_mul_two (n : Nat) :
    (strictUpperPairs n).length * 2 = n * (n - 1) := by
  unfold strictUpperPairs
  rw [List.length_flatMap]
  have hmap : (List.map
      (List.length ∘ fun i => ((List.range n).filter fun j => decide (i < j)).map
        fun j => (i, j)) (List.range n)) =
      (List.range n).map fun i => n - (i + 1) := by
    refine List.map_congr_left fun i _ => ?_
    simp only [Function.comp_apply, List.length_map]
    exact length_filter_range_lt n i
  rw [hmap, list_sum_map_range]
  have hrefl := Finset.sum_range_reflect (fun j => j) n
  have heq : ∀ i ∈ Finset.range n, n - (i + 1) = n - 1 - i := fun i _ => by omega
  rw [Finset.sum_congr rfl heq, hrefl, Finset.sum_range_id_mul_two]

/-- The window depth the source passes to `soa::selfCombinations` inside
`processMixedEvent`: the literal `5`. The configurable `ConfNEventsMix`
(default 5, described as the number of events for mixing) is declared but
never read at that call site, so it is an ignored argument here. -/
def processMixedEventMixingDepth (confNEventsMix : Int) : Nat := 5

/-- Default value of the configurable `ConfNEventsMix`. -/
def defaultConfNEventsMix : Int := 5

/-- Modelled from the spec: `MixingPool.windowedPairs` — a new event is paired
against at most `depth` most-recently-inserted prior events of its bin, in
insertion order (the pool is listed most-recent-first); the pool machinery
itself lives in the framework headers, not in the sources. -/
def windowedPairs (depth : Nat) (newEvent : Nat) (pool : List Nat) : List (Nat × Nat) :=
  (pool.take depth).map fun e => (newEvent, e)

/-- A track as it enters the pairing loops: an opaque index plus its nsigma
inputs. -/
structure MixPart where
  idx : Nat
  ns : NSigmaInputs
deriving DecidableEq

/-- One iteration of the strictly-upper same-event loop of `doSameEvent`
(`ContType` 2 or 3): both particles gated with role index 2 as in the source,
then close-pair rejection, pair cleaning, and the pseudo-random draw choosing
which slot order is filled; returns the accumulator fills for the pair. -/
def doSameEventPairSS (cfg : TwoTracksConfig) (tracks : TrackFilterConfig)
    (confIsCPR : Bool) (closePair cleanPair : MixPart → MixPart → Bool)
    (contType : Int) (rand : ℚ) (p1 p2 : MixPart) : List (MixPart × MixPart) :=
  if !(IsParticleNSigmaB cfg tracks 2 p1.ns) then []
  else if !(IsParticleNSigmaB cfg tracks 2 p2.ns) then []
  else if confIsCPR && closePair p1 p2 then []
  else if !(cleanPair p1 p2) then []
  else if contType = 2 ∨ contType = 3 then
    if rand > 1/2 then [(p1, p2)]
    else if rand ≤ 1/2 then [(p2, p1)]
    else []
  else []

/-- One iteration of the full-cross same-event loop of `doSameEvent`
(`ContType` 1): p1 gated with role index 1, p2 with role index 2. -/
def doSameEventPairPM (cfg : TwoTracksConfig) (tracks : TrackFilterConfig)
    (confIsCPR : Bool) (closePair cleanPair : MixPart → MixPart → Bool)
    (p1 p2 : MixPart) : List (MixPart × MixPart) :=
  if !(IsParticleNSigmaB cfg tracks 1 p1.ns) then []
  else if !(IsParticleNSigmaB cfg tracks 2 p2.ns) then []
  else if confIsCPR && closePair p1 p2 then []
  else if !(cleanPair p1 p2) then []
  else [(p1, p2)]

/-- One iteration of the mixed-event loop of `doMixedEvent`: in the source BOTH
particles are gated with the literal role index 2 (lines 591 and 595), then
close-pair rejection, then the `switch (ContType)` fill into the matching
denominator container (`default:` fills nothing). -/
def doMixedEventPair (cfg : TwoTracksConfig) (tracks : TrackFilterConfig)
    (confIsCPR : Bool) (closePair : MixPart → MixPart → Bool)
    (contType : Int) (p1 p2 : MixPart) : List (MixPart × MixPart) :=
  if !(IsParticleNSigmaB cfg tracks 2 p1.ns) then []
  else if !(IsParticleNSigmaB cfg tracks 2 p2.ns) then []
  else if confIsCPR && closePair p1 p2 then []
  else if contType = 1 ∨ contType = 2 ∨ contType = 3 then [(p1, p2)]
  else []

/-- Observable operations of the task, recorded in emission order: QA
histogram fills, numerator/denominator accumulator fills
(`fill_mult_NumDen`; event type 0 = same, 1 = mixed), covariance fills
(`fill_mult_kT_Cov`), and fatal log reports. -/
inductive TraceOp where
  | qaFill (bin : Int)
  | numDenFill (contType : Int) (evType : Int) (p1 p2 : MixPart)
  | covFill (contType : Int) (evType : Int) (jmax : Int)
  | logFatal
deriving DecidableEq

/-- Recogniser for covariance fills. -/
def isCovFill : TraceOp → Bool
  | TraceOp.covFill _ _ _ => true
  | _ => false

/-- Number of covariance fills in a trace. -/
def covCount (l : List TraceOp) : Nat := (l.filter isCovFill).length

/-- The boolean channel switches `cfgProcessPM`, `cfgProcessPP`,
`cfgProcessMM`. -/
structure ChannelFlags where
  cfgProcessPM : Bool
  cfgProcessPP : Bool
  cfgProcessMM : Bool
deriving DecidableEq

/-- All cross pairs of two particle collections, in loop order. -/
def listPairs (xs ys : List MixPart) : List (MixPart × MixPart) :=
  xs.flatMap fun a => ys.map fun b => (a, b)

/-- All strictly-upper pairs of one particle collection, in loop order. -/
def listStrictPairs : List MixPart → List (MixPart × MixPart)
  | [] => []
  | x :: xs => (xs.map fun y => (x, y)) ++ listStrictPairs xs

/-- A collision as the mixing loops see it: its mixing bin, multiplicity,
magnetic field and the two sliced particle partitions. -/
structure MixCollision where
  bin : Int
  multNtr : Int
  magField : ℚ
  partsOne : List MixPart
  partsTwo : List MixPart

/-- Trace of one `doSameEvent` call: `ContType` 1 runs the full-cross loop
over the two partitions, `ContType` 2 and 3 the strictly-upper loop over the
first passed partition. `rand` is the per-pair draw of the transient
`TRandom2`. -/
def doSameEventTrace (cfg : TwoTracksConfig) (tracks : TrackFilterConfig)
    (confIsCPR : Bool) (closePair cleanPair : MixPart → MixPart → Bool)
    (rand : MixPart → MixPart → ℚ) (contType : Int) (xs ys : List MixPart) :
    List TraceOp :=
  if contType = 1 then
    (listPairs xs ys).flatMap fun pq =>
      (doSameEventPairPM cfg tracks confIsCPR closePair cleanPair pq.1 pq.2).map
        fun f => TraceOp.numDenFill 1 0 f.1 f.2
  else
    (listStrictPairs xs).flatMap fun pq =>
      (doSameEventPairSS cfg tracks confIsCPR closePair cleanPair contType
          (rand pq.1 pq.2) pq.1 pq.2).map
        fun f => TraceOp.numDenFill contType 0 f.1 f.2

/-- Trace of `processSameEvent` on one collision: the collision QA fill, then
the enabled channels in source order (PM with parts one x two, PP with parts
one, MM with parts two). -/
def processSameEventTrace (cfg : TwoTracksConfig) (tracks : TrackFilterConfig)
    (flags : ChannelFlags) (confIsCPR : Bool)
    (closePair cleanPair : MixPart → MixPart → Bool)
    (rand : MixPart → MixPart → ℚ) (c : MixCollision) : List TraceOp :=
  TraceOp.qaFill c.bin ::
  ((if flags.cfgProcessPM then
      doSameEventTrace cfg tracks confIsCPR closePair cleanPair rand 1 c.partsOne c.partsTwo
    else []) ++
   (if flags.cfgProcessPP then
      doSameEventTrace cfg tracks confIsCPR closePair cleanPair rand 2 c.partsOne c.partsOne
    else []) ++
   (if flags.cfgProcessMM then
      doSameEventTrace cfg tracks confIsCPR closePair cleanPair rand 3 c.partsTwo c.partsTwo
    else []))

/-- Trace of one `doMixedEvent` call. -/
def doMixedEventTrace (cfg : TwoTracksConfig) (tracks : TrackFilterConfig)
    (confIsCPR : Bool) (closePair : MixPart → MixPart → Bool)
    (contType : Int) (xs ys : List MixPart) : List TraceOp :=
  (listPairs xs ys).flatMap fun pq =>
    (doMixedEventPair cfg tracks confIsCPR closePair contType pq.1 pq.2).map
      fun f => TraceOp.numDenFill contType 1 f.1 f.2

/-- Body of the `processMixedEvent` loop for one binned collision pair: the QA
fill, then — only when the magnetic fields agree — the enabled channels (PM
pairs parts one of the first with parts two of the second collision, PP parts
one with parts one, MM parts two with parts two). A field mismatch emits
nothing further: `continue`. -/
def processMixedEventBody (cfg : TwoTracksConfig) (tracks : TrackFilterConfig)
    (flags : ChannelFlags) (confIsCPR : Bool)
    (closePair : MixPart → MixPart → Bool) (c1 c2 : MixCollision) : List TraceOp :=
  TraceOp.qaFill c1.bin ::
  (if c1.magField ≠ c2.magField then []
   else
     (if flags.cfgProcessPM then
        doMixedEventTrace cfg tracks confIsCPR closePair 1 c1.partsOne c2.partsTwo
      else []) ++
     (if flags.cfgProcessPP then
        doMixedEventTrace cfg tracks confIsCPR closePair 2 c1.partsOne c2.partsOne
      else []) ++
     (if flags.cfgProcessMM then
        doMixedEventTrace cfg tracks confIsCPR closePair 3 c1.partsTwo c2.partsTwo
      else []))

/-- Trace of `processMixedEvent` over the binned collision pairs produced by
`soa::selfCombinations`. -/
def processMixedEvent (cfg : TwoTracksConfig) (tracks : TrackFilterConfig)
    (flags : ChannelFlags) (confIsCPR : Bool)
    (closePair : MixPart → MixPart → Bool)
    (collPairs : List (MixCollision × MixCollision)) : List TraceOp :=
  collPairs.flatMap fun cc =>
    processMixedEventBody cfg tracks flags confIsCPR closePair cc.1 cc.2

/-- Trace of `processCov`: `JMax = (ConfLMax + 1) * (ConfLMax + 1)`, then one
`fill_mult_kT_Cov` for the same-event and one for the mixed-event container of
a single channel selected by the if/else-if chain (MM first, then PP, then
PM). -/
def processCov (flags : ChannelFlags) (confLMax : Int) : List TraceOp :=
  if flags.cfgProcessMM then
    [TraceOp.covFill 3 0 ((confLMax + 1) * (confLMax + 1)),
     TraceOp.covFill 3 1 ((confLMax + 1) * (confLMax + 1))]
  else if flags.cfgProcessPP then
    [TraceOp.covFill 2 0 ((confLMax + 1) * (confLMax + 1)),
     TraceOp.covFill 2 1 ((confLMax + 1) * (confLMax + 1))]
  else if flags.cfgProcessPM then
    [TraceOp.covFill 1 0 ((confLMax + 1) * (confLMax + 1)),
     TraceOp.covFill 1 1 ((confLMax + 1) * (confLMax + 1))]
  else []

/-- Sign of the magnetic field value. -/
def fieldSign (b : ℚ) : Int := if 0 < b then 1 else if b < 0 then -1 else 0

/-- Modelled from the spec: one processing pass — the framework runs the
same-event process over each collision and the mixed-event process over the
binned collision pairs, then invokes the covariance process once after those
fills are complete; the process-function scheduler is framework code outside
the sources. -/
def processingPass (cfg : TwoTracksConfig) (tracks : TrackFilterConfig)
    (flags : ChannelFlags) (confIsCPR : Bool)
    (closePair cleanPair : MixPart → MixPart → Bool)
    (rand : MixPart → MixPart → ℚ) (confLMax : Int)
    (cols : List MixCollision) (collPairs : List (MixCollision × MixCollision)) :
    List TraceOp :=
  (cols.flatMap (processSameEventTrace cfg tracks flags confIsCPR closePair cleanPair rand)) ++
    processMixedEvent cfg tracks flags confIsCPR closePair collPairs ++
    processCov flags confLMax

theorem IsProtonNSigma_eq_decide (cfg : TwoTracksConfig) (mom tpc tof : ℚ) :
    IsProtonNSigma cfg mom tpc tof =
      if mom < cfg.confTOFPtMin then decide (|tpc| < cfg.confNsigmaTPC)
      else hypotLt tof tpc cfg.confNsigmaCombined := by
  unfold IsProtonNSigma
  split_ifs <;> simp_all

/-- Claim C2: proton admission returns true iff either the momentum is below
`ConfTOFPtMin` and `|nsigmaTPCPr| < ConfNsigmaTPC`, or the momentum is at or
above `ConfTOFPtMin` and `sqrt(nsigmaTPCPr^2 + nsigmaTOFPr^2) <
ConfNsigmaCombined`; in particular, with the default configuration
(`ConfTOFPtMin = 0.5`, `ConfNsigmaTPC = 3.0`, `ConfNsigmaCombined = 3.0`) the
input `mom = 0.4, nsigmaTPCPr = 1.5` is admitted for any TOF value, and
`mom = 0.7, nsigmaTPCPr = 2.0, nsigmaTOFPr = 2.0` is admitted. -/
theorem C2_proton_admission :
    (∀ (cfg : TwoTracksConfig) (mom tpcPr tofPr : ℚ),
      IsProtonNSigma cfg mom tpcPr tofPr = true ↔
        ((mom < cfg.confTOFPtMin ∧ |tpcPr| < cfg.confNsigmaTPC) ∨
         (cfg.confTOFPtMin ≤ mom ∧
           Real.sqrt ((tpcPr : ℝ) ^ 2 + (tofPr : ℝ) ^ 2) < (cfg.confNsigmaCombined : ℝ)))) ∧
    (∀ tofPr : ℚ, IsProtonNSigma defaultTwoTracksConfig (2/5) (3/2) tofPr = true) ∧
    IsProtonNSigma defaultTwoTracksConfig (7/10) 2 2 = true := by
  refine ⟨?_, ?_, ?_⟩
  · intro cfg mom tpcPr tofPr
    rw [IsProtonNSigma_eq_decide]
    by_cases h : mom < cfg.confTOFPtMin
    · have h2 : ¬ cfg.confTOFPtMin ≤ mom := not_le.mpr h
      simp [h, h2]
    · have h2 : cfg.confTOFPtMin ≤ mom := not_lt.mp h
      rw [if_neg h]
      rw [hypotLt_iff_sqrt]
      constructor
      · intro hs
        exact Or.inr ⟨h2, by rwa [add_comm] at hs⟩
      · rintro (⟨hlt, -⟩ | ⟨-, hs⟩)
        · exact absurd hlt h
        · rwa [add_comm] at hs
  · intro tofPr
    unfold IsProtonNSigma defaultTwoTracksConfig
    norm_num [abs_lt]
  · unfold IsProtonNSigma defaultTwoTracksConfig hypotLt
    norm_num

/-- Claim C3: kaon admission applies five momentum bands with distinct TPC/TOF
cutoffs — `|nsigmaTPCK| < 3.0` for `mom < 0.3`, `< 2.0` on `[0.3, 0.45)`,
`< 1.0` on `[0.45, 0.55)`, `|nsigmaTOFK| < 3.0` and `|nsigmaTPCK| < 3.0` on
`[0.55, 1.5)`, `|nsigmaTOFK| < 2.0` and `|nsigmaTPCK| < 3.0` for `mom > 1.5`;
and at `mom = 0.5` the input `nsigmaTPCK = 1.2` is rejected. -/
theorem C3_kaon_bands :
    (∀ mom tpc tof : ℚ, mom < 3/10 →
      (IsKaonNSigma mom tpc tof = true ↔ |tpc| < 3)) ∧
    (∀ mom tpc tof : ℚ, 3/10 ≤ mom → mom < 9/20 →
      (IsKaonNSigma mom tpc tof = true ↔ |tpc| < 2)) ∧
    (∀ mom tpc tof : ℚ, 9/20 ≤ mom → mom < 11/20 →
      (IsKaonNSigma mom tpc tof = true ↔ |tpc| < 1)) ∧
    (∀ mom tpc tof : ℚ, 11/20 ≤ mom → mom < 3/2 →
      (IsKaonNSigma mom tpc tof = true ↔ (|tof| < 3 ∧ |tpc| < 3))) ∧
    (∀ mom tpc tof : ℚ, 3/2 < mom →
      (IsKaonNSigma mom tpc tof = true ↔ (|tof| < 2 ∧ |tpc| < 3))) ∧
    (∀ tof : ℚ, IsKaonNSigma (1/2) (6/5) tof = false) := by
  refine ⟨?_, ?_, ?_, ?_, ?_, ?_⟩
  · intro mom tpc tof h1
    unfold IsKaonNSigma
    rw [if_pos h1]
    split_ifs with h <;> simp [h]
  · intro mom tpc tof h1 h2
    unfold IsKaonNSigma
    rw [if_neg (not_lt.mpr h1), if_pos h2]
    split_ifs with h <;> simp [h]
  · intro mom tpc tof h1 h2
    unfold IsKaonNSigma
    rw [if_neg (by linarith : ¬ mom < 3/10), if_neg (not_lt.mpr h1), if_pos h2]
    split_ifs with h <;> simp [h]
  · intro mom tpc tof h1 h2
    unfold IsKaonNSigma
    rw [if_neg (by linarith : ¬ mom < 3/10), if_neg (by linarith : ¬ mom < 9/20),
      if_neg (not_lt.mpr h1), if_pos h2]
    split_ifs with h <;> simp_all
  · intro mom tpc tof h1
    unfold IsKaonNSigma
    rw [if_neg (by linarith : ¬ mom < 3/10), if_neg (by linarith : ¬ mom < 9/20),
      if_neg (by linarith : ¬ mom < 11/20), if_neg (by linarith : ¬ mom < 3/2),
      if_pos h1]
    split_ifs with h <;> simp_all
  · intro tof
    unfold IsKaonNSigma
    norm_num [abs_lt]

/-- Witness for claim C3: the first band applied at a concrete admitted
input. -/
theorem C3_kaon_bands_witness :
    (0 : ℚ) < 3/10 ∧ (IsKaonNSigma 0 1 0 = true ↔ |(1 : ℚ)| < 3) :=
  ⟨by norm_num, C3_kaon_bands.1 0 1 0 (by norm_num)⟩

/-- Claim C10: kaon admission at momentum exactly 1.5 returns false for every
pair of nsigma inputs — `mom = 3/2` fails all band guards (`mom < 1.5` and
`mom > 1.5` both false) and falls through to the rejecting else branch. -/
theorem C10_kaon_boundary (tpc tof : ℚ) : IsKaonNSigma (3/2) tpc tof = false := by
  unfold IsKaonNSigma
  norm_num

/-- Claim C1 (code evaluation): the window depth passed to
`soa::selfCombinations` is the literal 5 whatever `ConfNEventsMix` holds; with
`ConfNEventsMix = 3` and five prior same-bin events, a new event is still
paired against all five most recent prior events, in insertion order, not
three. -/
theorem C1_mixing_depth_hardcoded :
    (∀ confNEventsMix : Int, processMixedEventMixingDepth confNEventsMix = 5) ∧
    (windowedPairs (processMixedEventMixingDepth 3) 6 [5, 4, 3, 2, 1]).length = 5 ∧
    windowedPairs (processMixedEventMixingDepth 3) 6 [5, 4, 3, 2, 1] =
      [(6, 5), (6, 4), (6, 3), (6, 2), (6, 1)] :=
  ⟨fun _ => rfl, rfl, rfl⟩

/-- Claim C5: the StrictUpper policy on a single collection of size N
enumerates exactly N*(N-1)/2 pairs (i, j) with i < j, each exactly once and
never a self-pair; the FullCross policy on sizes N and M enumerates exactly
N*M pairs, every (i, j) with i in the first and j in the second collection
exactly once. -/
theorem C5_combination_policies (n m : Nat) :
    (strictUpperPairs n).length = n * (n - 1) / 2 ∧
    (strictUpperPairs n).Nodup ∧
    (∀ i j, (i, j) ∈ strictUpperPairs n ↔ i < j ∧ j < n) ∧
    (∀ i, (i, i) ∉ strictUpperPairs n) ∧
    (fullCrossPairs n m).length = n * m ∧
    (fullCrossPairs n m).Nodup ∧
    (∀ i j, (i, j) ∈ fullCrossPairs n m ↔ i < n ∧ j < m) := by
  refine ⟨?_, nodup_strictUpperPairs n, fun i j => mem_strictUpperPairs n i j, ?_,
    length_fullCrossPairs n m, nodup_fullCrossPairs n m,
    fun i j => mem_fullCrossPairs n m i j⟩
  · have h := length_strictUpperPairs_mul_two n
    omega
  · intro i hmem
    exact absurd ((mem_strictUpperPairs n i i).mp hmem).1 (lt_irrefl i)

/-- Counterexample to claim C9: a PID dispatch on species code 11 (neither
proton nor pion nor kaon) with a valid role index does not abort the run — it
returns a plain non-fatal rejection. -/
theorem C9_counterexample :
    IsParticleNSigma defaultTwoTracksConfig ⟨11, 211⟩ 1 ⟨0, 0, 0, 0, 0, 0, 0⟩ =
      PIDOutcome.ok false ∧
    IsParticleNSigma defaultTwoTracksConfig ⟨11, 211⟩ 1 ⟨0, 0, 0, 0, 0, 0, 0⟩ ≠
      PIDOutcome.fatal :=
  ⟨by decide, by decide⟩

/-- Claim C9 (amended): a particle role index other than 1 or 2 is fatal and
reported immediately; a PID dispatch on a species code other than proton, pion
or kaon (PDG ±2212, ±211, ±321) is NOT fatal — it returns false, silently
rejecting the particle. -/
theorem C9_role_fatal_species_rejected (cfg : TwoTracksConfig)
    (tracks : TrackFilterConfig) (n : Int) (s : NSigmaInputs) (pdg : Int)
    (hn : n ≠ 1 ∧ n ≠ 2)
    (hpdg : pdg ≠ 2212 ∧ pdg ≠ -2212 ∧ pdg ≠ 211 ∧ pdg ≠ -211 ∧
      pdg ≠ 321 ∧ pdg ≠ -321) :
    IsParticleNSigma cfg tracks n s = PIDOutcome.fatal ∧
    pidDispatch cfg pdg s = false := by
  constructor
  · unfold IsParticleNSigma
    rw [if_neg hn.1, if_neg hn.2]
  · unfold pidDispatch
    rw [if_neg (by tauto), if_neg (by tauto), if_neg (by tauto)]

/-- Witness for claim C9 (amended): role index 3 aborts; species code 11 is
rejected without abort. -/
theorem C9_role_fatal_species_rejected_witness :
    IsParticleNSigma defaultTwoTracksConfig ⟨211, 211⟩ 3 ⟨0, 0, 0, 0, 0, 0, 0⟩ =
      PIDOutcome.fatal ∧
    pidDispatch defaultTwoTracksConfig 11 ⟨0, 0, 0, 0, 0, 0, 0⟩ = false :=
  C9_role_fatal_species_rejected defaultTwoTracksConfig ⟨211, 211⟩ 3
    ⟨0, 0, 0, 0, 0, 0, 0⟩ 11 (by decide) (by decide)

theorem IsParticleNSigmaB_two (cfg : TwoTracksConfig) (tracks : TrackFilterConfig)
    (s : NSigmaInputs) :
    IsParticleNSigmaB cfg tracks 2 s = pidDispatch cfg tracks.confPDGCodePartTwo s := by
  unfold IsParticleNSigmaB IsParticleNSigma
  norm_num

/-- Claim C6: a same-event strictly-upper pair that passes PID gating,
close-pair rejection and pair cleaning produces exactly one accumulator fill:
the pseudo-random draw fills (p1, p2) when rand > 0.5 and (p2, p1) when
rand <= 0.5; the two cases are exhaustive and mutually exclusive, so the pair
is never dropped and never filled twice. -/
theorem C6_single_random_fill (cfg : TwoTracksConfig) (tracks : TrackFilterConfig)
    (confIsCPR : Bool) (closePair cleanPair : MixPart → MixPart → Bool)
    (contType : Int) (rand : ℚ) (p1 p2 : MixPart)
    (hct : contType = 2 ∨ contType = 3)
    (h1 : IsParticleNSigmaB cfg tracks 2 p1.ns = true)
    (h2 : IsParticleNSigmaB cfg tracks 2 p2.ns = true)
    (hcpr : (confIsCPR && closePair p1 p2) = false)
    (hcl : cleanPair p1 p2 = true) :
    doSameEventPairSS cfg tracks confIsCPR closePair cleanPair contType rand p1 p2 =
      (if rand > 1/2 then [(p1, p2)] else [(p2, p1)]) ∧
    (doSameEventPairSS cfg tracks confIsCPR closePair cleanPair contType rand
        p1 p2).length = 1 := by
  have hmain : doSameEventPairSS cfg tracks confIsCPR closePair cleanPair contType rand p1 p2 =
      (if rand > 1/2 then [(p1, p2)] else [(p2, p1)]) := by
    unfold doSameEventPairSS
    rw [h1, h2, hcpr, hcl]
    simp only [Bool.not_true, Bool.false_eq_true, if_false, if_pos hct]
    by_cases hr : rand > 1/2
    · rw [if_pos hr, if_pos hr]
    · rw [if_neg hr, if_neg hr, if_pos (not_lt.mp hr)]
  refine ⟨hmain, ?_⟩
  rw [hmain]
  by_cases hr : rand > 1/2
  · rw [if_pos hr]
    rfl
  · rw [if_neg hr]
    rfl

/-- Witness for claim C6: a concrete admitted pion pair with rand = 3/4 fills
(p1, p2) once. -/
theorem C6_single_random_fill_witness :
    doSameEventPairSS defaultTwoTracksConfig ⟨211, 211⟩ false (fun _ _ => false)
        (fun _ _ => true) 2 (3/4) ⟨0, ⟨0, 0, 0, 0, 0, 0, 0⟩⟩ ⟨1, ⟨0, 0, 0, 0, 0, 0, 0⟩⟩ =
      (if (3/4 : ℚ) > 1/2 then
        [(⟨0, ⟨0, 0, 0, 0, 0, 0, 0⟩⟩, ⟨1, ⟨0, 0, 0, 0, 0, 0, 0⟩⟩)]
       else
        [(⟨1, ⟨0, 0, 0, 0, 0, 0, 0⟩⟩, ⟨0, ⟨0, 0, 0, 0, 0, 0, 0⟩⟩)]) ∧
    (doSameEventPairSS defaultTwoTracksConfig ⟨211, 211⟩ false (fun _ _ => false)
        (fun _ _ => true) 2 (3/4) ⟨0, ⟨0, 0, 0, 0, 0, 0, 0⟩⟩
        ⟨1, ⟨0, 0, 0, 0, 0, 0, 0⟩⟩).length = 1 :=
  C6_single_random_fill defaultTwoTracksConfig ⟨211, 211⟩ false (fun _ _ => false)
    (fun _ _ => true) 2 (3/4) ⟨0, ⟨0, 0, 0, 0, 0, 0, 0⟩⟩ ⟨1, ⟨0, 0, 0, 0, 0, 0, 0⟩⟩
    (Or.inl rfl)
    (by norm_num [IsParticleNSigmaB, IsParticleNSigma, pidDispatch, IsPionNSigma,
      defaultTwoTracksConfig])
    (by norm_num [IsParticleNSigmaB, IsParticleNSigma, pidDispatch, IsPionNSigma,
      defaultTwoTracksConfig])
    (by simp) rfl

/-- Claim C7: a mixed-event collision pair whose events have mismatched
magnetic-field sign is skipped silently — the loop body emits only the QA bin
fill, no denominator fill for any particle pair and no log report, and the
loop goes on with the remaining collision pairs. -/
theorem C7_field_mismatch_skip (cfg : TwoTracksConfig) (tracks : TrackFilterConfig)
    (flags : ChannelFlags) (confIsCPR : Bool)
    (closePair : MixPart → MixPart → Bool) (c1 c2 : MixCollision)
    (h : fieldSign c1.magField ≠ fieldSign c2.magField) :
    processMixedEventBody cfg tracks flags confIsCPR closePair c1 c2 =
      [TraceOp.qaFill c1.bin] ∧
    (∀ a ∈ processMixedEventBody cfg tracks flags confIsCPR closePair c1 c2,
      (∀ ct et q1 q2, a ≠ TraceOp.numDenFill ct et q1 q2) ∧ a ≠ TraceOp.logFatal) ∧
    (∀ rest : List (MixCollision × MixCollision),
      processMixedEvent cfg tracks flags confIsCPR closePair ((c1, c2) :: rest) =
        processMixedEventBody cfg tracks flags confIsCPR closePair c1 c2 ++
          processMixedEvent cfg tracks flags confIsCPR closePair rest) := by
  have hne : c1.magField ≠ c2.magField := fun he => h (by rw [he])
  have hbody : processMixedEventBody cfg tracks flags confIsCPR closePair c1 c2 =
      [TraceOp.qaFill c1.bin] := by
    unfold processMixedEventBody
    rw [if_pos hne]
  refine ⟨hbody, ?_, ?_⟩
  · intro a ha
    rw [hbody, List.mem_singleton] at ha
    subst ha
    exact ⟨fun ct et q1 q2 hcon => TraceOp.noConfusion hcon,
      fun hcon => TraceOp.noConfusion hcon⟩
  · intro rest
    unfold processMixedEvent
    rw [List.flatMap_cons]

/-- Witness for claim C7: fields +5 and -5 have opposite signs and the body
reduces to the lone QA fill. -/
theorem C7_field_mismatch_skip_witness :
    processMixedEventBody defaultTwoTracksConfig ⟨211, 211⟩ ⟨true, true, true⟩ false
        (fun _ _ => false) ⟨0, 0, 5, [], []⟩ ⟨0, 0, -5, [], []⟩ =
      [TraceOp.qaFill 0] :=
  (C7_field_mismatch_skip defaultTwoTracksConfig ⟨211, 211⟩ ⟨true, true, true⟩ false
    (fun _ _ => false) ⟨0, 0, 5, [], []⟩ ⟨0, 0, -5, [], []⟩ (by norm_num [fieldSign])).1

/-- Counterexample to claim C8: with particle one configured as a proton
(2212) and particle two as a kaon (321), a role-one particle passing the
proton hypothesis paired with a partner passing the kaon hypothesis, without
close-pair rejection, yields NO mixed-event denominator fill — the mixed loop
gates the role-one particle with role index 2, i.e. under the kaon
hypothesis, which rejects it. -/
theorem C8_counterexample :
    IsParticleNSigmaB defaultTwoTracksConfig ⟨2212, 321⟩ 1
      ⟨1/2, 6/5, 6/5, 6/5, 6/5, 6/5, 6/5⟩ = true ∧
    IsParticleNSigmaB defaultTwoTracksConfig ⟨2212, 321⟩ 2
      ⟨1/5, 0, 0, 0, 0, 0, 0⟩ = true ∧
    doMixedEventPair defaultTwoTracksConfig ⟨2212, 321⟩ false (fun _ _ => false) 1
      ⟨0, ⟨1/2, 6/5, 6/5, 6/5, 6/5, 6/5, 6/5⟩⟩ ⟨1, ⟨1/5, 0, 0, 0, 0, 0, 0⟩⟩ = [] :=
  ⟨by norm_num [IsParticleNSigmaB, IsParticleNSigma, pidDispatch, IsProtonNSigma,
      hypotLt, defaultTwoTracksConfig],
   by norm_num [IsParticleNSigmaB, IsParticleNSigma, pidDispatch, IsKaonNSigma,
      defaultTwoTracksConfig],
   by norm_num [doMixedEventPair, IsParticleNSigmaB, IsParticleNSigma, pidDispatch,
      IsKaonNSigma, defaultTwoTracksConfig, abs_lt]⟩

/-- Claim C8 (amended): in the mixed-event loop — every channel, the
opposite-sign one included — BOTH drawn particles are PID-gated with role
index 2, i.e. under the species hypothesis configured for particle two
(`ConfPDGCodePartTwo`); a pair passing that gate and not close-pair-rejected
is filled, and a role-one particle failing that gate produces no fill
regardless of the particle-one hypothesis. -/
theorem C8_mixed_gating_role_two (cfg : TwoTracksConfig) (tracks : TrackFilterConfig)
    (closePair : MixPart → MixPart → Bool) (p1 p2 : MixPart)
    (h1 : pidDispatch cfg tracks.confPDGCodePartTwo p1.ns = true)
    (h2 : pidDispatch cfg tracks.confPDGCodePartTwo p2.ns = true) :
    doMixedEventPair cfg tracks false closePair 1 p1 p2 = [(p1, p2)] ∧
    (∀ q1 : MixPart, pidDispatch cfg tracks.confPDGCodePartTwo q1.ns = false →
      doMixedEventPair cfg tracks false closePair 1 q1 p2 = []) := by
  constructor
  · unfold doMixedEventPair
    rw [IsParticleNSigmaB_two, IsParticleNSigmaB_two, h1, h2]
    norm_num
  · intro q1 hq
    unfold doMixedEventPair
    rw [IsParticleNSigmaB_two, hq]
    norm_num

/-- Witness for claim C8 (amended): a kaon-passing pair fills once under the
role-two gate. -/
theorem C8_mixed_gating_role_two_witness :
    doMixedEventPair defaultTwoTracksConfig ⟨2212, 321⟩ false (fun _ _ => false) 1
      ⟨0, ⟨1/5, 0, 0, 0, 0, 0, 0⟩⟩ ⟨1, ⟨1/5, 0, 0, 0, 0, 0, 0⟩⟩ =
      [(⟨0, ⟨1/5, 0, 0, 0, 0, 0, 0⟩⟩, ⟨1, ⟨1/5, 0, 0, 0, 0, 0, 0⟩⟩)] :=
  (C8_mixed_gating_role_two defaultTwoTracksConfig ⟨2212, 321⟩ (fun _ _ => false)
    ⟨0, ⟨1/5, 0, 0, 0, 0, 0, 0⟩⟩ ⟨1, ⟨1/5, 0, 0, 0, 0, 0, 0⟩⟩
    (by norm_num [pidDispatch, IsKaonNSigma, defaultTwoTracksConfig])
    (by norm_num [pidDispatch, IsKaonNSigma, defaultTwoTracksConfig])).1

theorem mem_ite_nil (p : Prop) [Decidable p] (l : List TraceOp) (a : TraceOp)
    (ha : a ∈ if p then l else []) : a ∈ l := by
  split_ifs at ha
  · exact ha
  · exact absurd ha (List.not_mem_nil a)

theorem covCount_eq_zero (l : List TraceOp) (h : ∀ a ∈ l, isCovFill a = false) :
    covCount l = 0 := by
  unfold covCount
  rw [List.filter_eq_nil_iff.mpr fun a ha => by simp [h a ha]]
  rfl

theorem covCount_append (l1 l2 : List TraceOp) :
    covCount (l1 ++ l2) = covCount l1 + covCount l2 := by
  unfold covCount
  rw [List.filter_append, List.length_append]

theorem not_cov_doSameEventTrace (cfg : TwoTracksConfig) (tracks : TrackFilterConfig)
    (confIsCPR : Bool) (closePair cleanPair : MixPart → MixPart → Bool)
    (rand : MixPart → MixPart → ℚ) (contType : Int) (xs ys : List MixPart)
    (a : TraceOp)
    (ha : a ∈ doSameEventTrace cfg tracks confIsCPR closePair cleanPair rand
      contType xs ys) :
    isCovFill a = false := by
  unfold doSameEventTrace at ha
  split_ifs at ha <;>
  · rw [List.mem_flatMap] at ha
    obtain ⟨pq, -, hm⟩ := ha
    rw [List.mem_map] at hm
    obtain ⟨f, -, rfl⟩ := hm
    rfl

theorem not_cov_doMixedEventTrace (cfg : TwoTracksConfig) (tracks : TrackFilterConfig)
    (confIsCPR : Bool) (closePair : MixPart → MixPart → Bool)
    (contType : Int) (xs ys : List MixPart) (a : TraceOp)
    (ha : a ∈ doMixedEventTrace cfg tracks confIsCPR closePair contType xs ys) :
    isCovFill a = false := by
  unfold doMixedEventTrace at ha
  rw [List.mem_flatMap] at ha
  obtain ⟨pq, -, hm⟩ := ha
  rw [List.mem_map] at hm
  obtain ⟨f, -, rfl⟩ := hm
  rfl

theorem not_cov_processSameEventTrace (cfg : TwoTracksConfig)
    (tracks : TrackFilterConfig) (flags : ChannelFlags) (confIsCPR : Bool)
    (closePair cleanPair : MixPart → MixPart → Bool)
    (rand : MixPart → MixPart → ℚ) (c : MixCollision) (a : TraceOp)
    (ha : a ∈ processSameEventTrace cfg tracks flags confIsCPR closePair cleanPair
      rand c) :
    isCovFill a = false := by
  unfold processSameEventTrace at ha
  rw [List.mem_cons] at ha
  rcases ha with rfl | ha
  · rfl
  · rw [List.mem_append] at ha
    rcases ha with ha | ha
    · rw [List.mem_append] at ha
      rcases ha with ha | ha
      · exact not_cov_doSameEventTrace _ _ _ _ _ _ _ _ _ _ (mem_ite_nil _ _ _ ha)
      · exact not_cov_doSameEventTrace _ _ _ _ _ _ _ _ _ _ (mem_ite_nil _ _ _ ha)
    · exact not_cov_doSameEventTrace _ _ _ _ _ _ _ _ _ _ (mem_ite_nil _ _ _ ha)

theorem not_cov_processMixedEventBody (cfg : TwoTracksConfig)
    (tracks : TrackFilterConfig) (flags : ChannelFlags) (confIsCPR : Bool)
    (closePair : MixPart → MixPart → Bool) (c1 c2 : MixCollision) (a : TraceOp)
    (ha : a ∈ processMixedEventBody cfg tracks flags confIsCPR closePair c1 c2) :
    isCovFill a = false := by
  unfold processMixedEventBody at ha
  rw [List.mem_cons] at ha
  rcases ha with rfl | ha
  · rfl
  · by_cases hmf : c1.magField ≠ c2.magField
    · rw [if_pos hmf] at ha
      exact absurd ha (List.not_mem_nil a)
    · rw [if_neg hmf] at ha
      rw [List.mem_append] at ha
      rcases ha with ha | ha
      · rw [List.mem_append] at ha
        rcases ha with ha | ha
        · exact not_cov_doMixedEventTrace _ _ _ _ _ _ _ _ (mem_ite_nil _ _ _ ha)
        · exact not_cov_doMixedEventTrace _ _ _ _ _ _ _ _ (mem_ite_nil _ _ _ ha)
      · exact not_cov_doMixedEventTrace _ _ _ _ _ _ _ _ (mem_ite_nil _ _ _ ha)

theorem covCount_fills_zero (cfg : TwoTracksConfig) (tracks : TrackFilterConfig)
    (flags : ChannelFlags) (confIsCPR : Bool)
    (closePair cleanPair : MixPart → MixPart → Bool)
    (rand : MixPart → MixPart → ℚ) (cols : List MixCollision)
    (collPairs : List (MixCollision × MixCollision)) :
    covCount
      (cols.flatMap
        (processSameEventTrace cfg tracks flags confIsCPR closePair cleanPair rand) ++
        processMixedEvent cfg tracks flags confIsCPR closePair collPairs) = 0 := by
  apply covCount_eq_zero
  intro a ha
  rw [List.mem_append] at ha
  rcases ha with ha | ha
  · rw [List.mem_flatMap] at ha
    obtain ⟨c, -, hc⟩ := ha
    exact not_cov_processSameEventTrace _ _ _ _ _ _ _ _ _ hc
  · unfold processMixedEvent at ha
    rw [List.mem_flatMap] at ha
    obtain ⟨cc, -, hc⟩ := ha
    exact not_cov_processMixedEventBody _ _ _ _ _ _ _ _ hc

/-- Claim C4: the covariance computation `fill_mult_kT_Cov` over
`(ConfLMax + 1)^2` moments runs exactly once per processing pass for the
same-event and once for the mixed-event container of the channel selected by
`processCov`, strictly after all same-event and mixed-event fills of the pass;
the per-pair loops never emit a covariance fill. -/
theorem C4_cov_once_after_fills (cfg : TwoTracksConfig) (tracks : TrackFilterConfig)
    (flags : ChannelFlags) (confIsCPR : Bool)
    (closePair cleanPair : MixPart → MixPart → Bool)
    (rand : MixPart → MixPart → ℚ) (confLMax : Int)
    (cols : List MixCollision) (collPairs : List (MixCollision × MixCollision)) :
    (processingPass cfg tracks flags confIsCPR closePair cleanPair rand confLMax
        cols collPairs =
      (cols.flatMap
        (processSameEventTrace cfg tracks flags confIsCPR closePair cleanPair rand) ++
        processMixedEvent cfg tracks flags confIsCPR closePair collPairs) ++
        processCov flags confLMax) ∧
    covCount
      (cols.flatMap
        (processSameEventTrace cfg tracks flags confIsCPR closePair cleanPair rand) ++
        processMixedEvent cfg tracks flags confIsCPR closePair collPairs) = 0 ∧
    (flags.cfgProcessMM = true →
      processCov flags confLMax =
        [TraceOp.covFill 3 0 ((confLMax + 1) * (confLMax + 1)),
         TraceOp.covFill 3 1 ((confLMax + 1) * (confLMax + 1))]) ∧
    (flags.cfgProcessMM = false → flags.cfgProcessPP = true →
      processCov flags confLMax =
        [TraceOp.covFill 2 0 ((confLMax + 1) * (confLMax + 1)),
         TraceOp.covFill 2 1 ((confLMax + 1) * (confLMax + 1))]) ∧
    (flags.cfgProcessMM = false → flags.cfgProcessPP = false →
      flags.cfgProcessPM = true →
      processCov flags confLMax =
        [TraceOp.covFill 1 0 ((confLMax + 1) * (confLMax + 1)),
         TraceOp.covFill 1 1 ((confLMax + 1) * (confLMax + 1))]) ∧
    ((flags.cfgProcessMM = true ∨ flags.cfgProcessPP = true ∨
        flags.cfgProcessPM = true) →
      covCount (processingPass cfg tracks flags confIsCPR closePair cleanPair rand
        confLMax cols collPairs) = 2) := by
  have hpass : processingPass cfg tracks flags confIsCPR closePair cleanPair rand
      confLMax cols collPairs =
      (cols.flatMap
        (processSameEventTrace cfg tracks flags confIsCPR closePair cleanPair rand) ++
        processMixedEvent cfg tracks flags confIsCPR closePair collPairs) ++
        processCov flags confLMax := by
    unfold processingPass
    rw [List.append_assoc]
  refine ⟨hpass, covCount_fills_zero cfg tracks flags confIsCPR closePair cleanPair
    rand cols collPairs, ?_, ?_, ?_, ?_⟩
  · intro hMM
    unfold processCov
    rw [if_pos hMM]
  · intro hMM hPP
    unfold processCov
    rw [if_neg (by rw [hMM]; exact Bool.false_ne_true), if_pos hPP]
  · intro hMM hPP hPM
    unfold processCov
    rw [if_neg (by rw [hMM]; exact Bool.false_ne_true),
      if_neg (by rw [hPP]; exact Bool.false_ne_true), if_pos hPM]
  · intro hor
    rw [hpass, covCount_append, covCount_fills_zero cfg tracks flags confIsCPR
      closePair cleanPair rand cols collPairs, Nat.zero_add]
    unfold processCov
    by_cases hMM : flags.cfgProcessMM = true
    · rw [if_pos hMM]
      rfl
    · rw [if_neg hMM]
      by_cases hPP : flags.cfgProcessPP = true
      · rw [if_pos hPP]
        rfl
      · rw [if_neg hPP]
        by_cases hPM : flags.cfgProcessPM = true
        · rw [if_pos hPM]
          rfl
        · exact absurd hor (by simp [hMM, hPP, hPM])

/-- Witness for claim C4: with only the MM channel enabled and
`ConfLMax = 2`, the covariance pass is the two nine-moment covariance fills. -/
theorem C4_cov_once_after_fills_witness :
    processCov ⟨false, false, true⟩ 2 =
      [TraceOp.covFill 3 0 9, TraceOp.covFill 3 1 9] := by
  have h := (C4_cov_once_after_fills defaultTwoTracksConfig ⟨211, 211⟩
    ⟨false, false, true⟩ false (fun _ _ => false) (fun _ _ => true)
    (fun _ _ => 0) 2 [] []).2.2.1 rfl
  norm_num at h
  exact h
